import Mathlib

/-!
Verification of the statistics and trend-analysis engine of `sportstracker.py`
(standings aggregation, player history, improvement trends, rolling averages).

The three record collections (players, weeks, results) are modelled after the
point at which the source has applied its type conversions
(`pd.to_numeric(..., errors='coerce')` for numeric columns and `astype(str)` for
identifier columns): a numeric cell is `Option ℚ`, where `none` stands for the
NaN produced by coercing a missing or non-numeric cell, and identifiers and
statuses are `String`.  The source computes in IEEE doubles; the embedding
computes in `ℚ`.  IEEE infinities (obtainable only by coercing the literal
strings "inf"/"-inf") are not modelled, and NaN propagation through numpy
arithmetic is modelled by `Option` propagation.
-/

/-- Python `int(...)` applied to a float: truncation toward zero. -/
def ratTrunc (q : ℚ) : ℤ := if 0 ≤ q then ⌊q⌋ else ⌈q⌉

/-- Python `round(x, 1)`.  The source rounds IEEE doubles with banker's
rounding; the embedding rounds rationals half-up.  The two agree except at
exact midpoints, which no analysed claim touches. -/
def round1 (q : ℚ) : ℚ := ((round (10 * q) : ℤ) : ℚ) / 10

/-- Python `round(x, 2)` (see `round1` for the midpoint caveat). -/
def round2 (q : ℚ) : ℚ := ((round (100 * q) : ℤ) : ℚ) / 100

/-- Python `round(x, 3)` (see `round1` for the midpoint caveat). -/
def round3 (q : ℚ) : ℚ := ((round (1000 * q) : ℤ) : ℚ) / 1000

/-- NaN-propagating addition (`none` plays the role of NaN). -/
def oAdd (a b : Option ℚ) : Option ℚ :=
  match a, b with
  | some x, some y => some (x + y)
  | _, _ => none

/-- NaN-propagating subtraction. -/
def oSub (a b : Option ℚ) : Option ℚ :=
  match a, b with
  | some x, some y => some (x - y)
  | _, _ => none

/-- NaN-propagating multiplication. -/
def oMul (a b : Option ℚ) : Option ℚ :=
  match a, b with
  | some x, some y => some (x * y)
  | _, _ => none

/-- Multiplication by a scalar, NaN-propagating. -/
def oSMul (c : ℚ) (a : Option ℚ) : Option ℚ := a.map (fun x => c * x)

/-- NaN-propagating division; division by zero yields a non-finite float in
the source, which the embedding also maps to `none`. -/
def oDiv (a b : Option ℚ) : Option ℚ :=
  match a, b with
  | some x, some y => if y = 0 then none else some (x / y)
  | _, _ => none

/-- `np.sum` over a vector that may contain NaN: any NaN poisons the sum. -/
def oSum : List (Option ℚ) → Option ℚ
  | [] => some 0
  | a :: l => oAdd a (oSum l)

/-- NaN-propagating absolute value. -/
def oAbs (a : Option ℚ) : Option ℚ := a.map (fun x => |x|)

/-- Python `a >= c` where `a` may be NaN: a comparison with NaN is `False`. -/
def oGeB (a : Option ℚ) (c : ℚ) : Bool :=
  match a with
  | some x => decide (c ≤ x)
  | none => false

/-- Python `a < c` where `a` may be NaN. -/
def oLtB (a : Option ℚ) (c : ℚ) : Bool :=
  match a with
  | some x => decide (x < c)
  | none => false

/-- Python `a > c` where `a` may be NaN. -/
def oGtB (a : Option ℚ) (c : ℚ) : Bool :=
  match a with
  | some x => decide (c < x)
  | none => false

/-- `pandas` `Series.mean()`: NaN entries are skipped; the mean of zero
non-NaN values is NaN. -/
def pMean (l : List (Option ℚ)) : Option ℚ :=
  let vs := l.filterMap id
  if vs.length = 0 then none else some (vs.sum / (vs.length : ℚ))

/-- `pandas` sample variance (`ddof = 1`), NaN entries skipped; NaN when fewer
than two non-NaN values are present.  The source's `.std()` is the square root
of this quantity; the square root is kept unevaluated to stay inside `ℚ`. -/
def pVar (l : List (Option ℚ)) : Option ℚ :=
  let vs := l.filterMap id
  if vs.length < 2 then none
  else
    let m := vs.sum / (vs.length : ℚ)
    some ((vs.map (fun v => (v - m) ^ 2)).sum / ((vs.length : ℚ) - 1))

/-- A row of the `players` collection (`players{id, name}`; the unused
`created_at` column is omitted). -/
structure Player where
  id : String
  name : String
deriving DecidableEq, Repr

/-- A row of the `weeks` collection after type conversion
(`season_year`, `week_number`, `total_games` through `pd.to_numeric(errors='coerce')`,
`id` through `astype(str)`); the unused `created_at` column is omitted. -/
structure Week where
  id : String
  week_number : Option ℚ
  season_year : Option ℚ
  total_games : Option ℚ
  week_date : String
deriving DecidableEq, Repr

/-- A row of the `results` collection after type conversion (`player_id`,
`week_id` through `astype(str)`, `correct_guesses` through
`pd.to_numeric(errors='coerce')`); the unused `id` and `created_at` columns
are omitted. -/
structure Result where
  player_id : String
  week_id : String
  correct_guesses : Option ℚ
  status : String
deriving DecidableEq, Repr

/-- The in-memory snapshot `data = {'players': ..., 'weeks': ..., 'results': ...}`
handed to every analysis function. -/
structure Snapshot where
  players : List Player
  weeks : List Week
  results : List Result
deriving DecidableEq, Repr

/-- One row of the table produced by `calculate_standings`. -/
structure StandingsRow where
  player_name : String
  weeks_absolute : ℕ
  correct_absolute : ℤ
  possible_absolute : ℤ
  accuracy_absolute : ℚ
  weeks_adjusted : ℕ
  correct_adjusted : ℤ
  possible_adjusted : ℤ
  accuracy_adjusted : ℚ
  omitted_weeks : ℤ
deriving DecidableEq, Repr

/-- The running totals of the per-week loop of `calculate_standings`
(`total_correct_absolute`, `total_possible_absolute`, `total_correct_adjusted`,
`total_possible_adjusted`). -/
structure Totals where
  ca : ℤ
  pa : ℤ
  cj : ℤ
  pj : ℤ
deriving DecidableEq, Repr

/-- The weeks of `weeks_df` after the season filter
(`weeks_df[weeks_df['season_year'] == season_year]`) and, when a week number is
given, the week filter. -/
def inScopeWeeks (s : Snapshot) (seasonYear : ℚ) (weekNumber : Option ℚ) : List Week :=
  let w1 := s.weeks.filter (fun w => decide (w.season_year = some seasonYear))
  match weekNumber with
  | some n => w1.filter (fun w => decide (w.week_number = some n))
  | none => w1

/-- `player_results[player_results['week_id'] == week_id]` followed by
`.iloc[0]`: the first matching record, if any. -/
def firstMatch (pres : List Result) (wid : String) : Option Result :=
  (pres.filter (fun r => decide (r.week_id = wid))).head?

/-- The per-week accumulation loop of `calculate_standings` (source lines
950–968).  `int(week['total_games'])` raises `ValueError` when the coerced
value is NaN; the error propagates to the surrounding `except` handler. -/
def sumWeeks (pres : List Result) : List Week → Totals → Except String Totals
  | [], acc => .ok acc
  | w :: ws, acc =>
    match w.total_games with
    | none => .error "cannot convert float NaN to integer"
    | some t =>
      let tg := ratTrunc t
      match firstMatch pres w.id with
      | some r =>
        if r.status = "omitted" then
          sumWeeks pres ws { acc with pa := acc.pa + tg }
        else
          let c : ℤ := match r.correct_guesses with
            | some q => ratTrunc q
            | none => 0
          sumWeeks pres ws { ca := acc.ca + c, pa := acc.pa + tg,
                             cj := acc.cj + c, pj := acc.pj + tg }
      | none => sumWeeks pres ws { acc with pa := acc.pa + tg }

/-- `(correct / possible * 100) if possible > 0 else 0`, rounded to one
decimal place. -/
def accuracyPct (c p : ℤ) : ℚ :=
  if 0 < p then round1 ((c : ℚ) / (p : ℚ) * 100) else 0

/-- The body of the per-player loop of `calculate_standings`. -/
def playerRow (weeks2 : List Week) (results : List Result) (p : Player) :
    Except String StandingsRow :=
  let ids := weeks2.map (fun w => w.id)
  let pres := results.filter (fun r => decide (r.player_id = p.id ∧ r.week_id ∈ ids))
  let participated := pres.filter (fun r => decide (¬ r.status = "omitted"))
  match sumWeeks pres weeks2 ⟨0, 0, 0, 0⟩ with
  | .error e => .error e
  | .ok t => .ok
      { player_name := p.name
        weeks_absolute := weeks2.length
        correct_absolute := t.ca
        possible_absolute := t.pa
        accuracy_absolute := accuracyPct t.ca t.pa
        weeks_adjusted := participated.length
        correct_adjusted := t.cj
        possible_adjusted := t.pj
        accuracy_adjusted := accuracyPct t.cj t.pj
        omitted_weeks := (weeks2.length : ℤ) - (participated.length : ℤ) }

/-- The `for _, player in players_df.iterrows()` loop: an exception raised for
any player discards the whole `standings` list. -/
def standingsRows (weeks2 : List Week) (results : List Result) :
    List Player → Except String (List StandingsRow)
  | [] => .ok []
  | p :: ps =>
    match playerRow weeks2 results p with
    | .error e => .error e
    | .ok r =>
      match standingsRows weeks2 results ps with
      | .error e => .error e
      | .ok rs => .ok (r :: rs)

/-- `calculate_standings(data, season_year, week_number=None)` (source lines
896–1002).  The surrounding `try/except` turns any internal error into an
empty table. -/
def calculate_standings (s : Snapshot) (seasonYear : ℚ) (weekNumber : Option ℚ) :
    List StandingsRow :=
  if s.players = [] ∨ s.weeks = [] then []
  else
    let weeks2 := inScopeWeeks s seasonYear weekNumber
    if weeks2 = [] then []
    else
      match standingsRows weeks2 s.results s.players with
      | .error _ => []
      | .ok rows => rows

/-- One row of the table produced by `get_player_history` (columns
`week_number, week_date, total_games, correct_guesses, accuracy, status`). -/
structure HistoryRow where
  week_number : Option ℚ
  week_date : String
  total_games : Option ℚ
  correct_guesses : ℚ
  accuracy : Option ℚ
  status : String
deriving DecidableEq, Repr

/-- `sort_values('week_number')` key on a possibly-NaN column: NaN keys are
placed last (`na_position='last'`), which is exactly the `WithTop` order. -/
def wnKey (o : Option ℚ) : WithTop ℚ := o

/-- The row ordering used by `get_player_history`'s final
`sort_values('week_number')`. -/
def histLe (a b : HistoryRow) : Prop := wnKey a.week_number ≤ wnKey b.week_number

instance : DecidableRel histLe := fun a b =>
  inferInstanceAs (Decidable (wnKey a.week_number ≤ wnKey b.week_number))

instance : IsTotal HistoryRow histLe :=
  ⟨fun a b => le_total (wnKey a.week_number) (wnKey b.week_number)⟩

instance : IsTrans HistoryRow histLe :=
  ⟨fun _ _ _ hab hbc => le_trans hab hbc⟩

/-- `players_df[players_df['name'] == player_name]` followed by
`.iloc[0]['id']`: the id of the first player with the given name. -/
def lookupPlayer (players : List Player) (playerName : String) : Option String :=
  ((players.filter (fun p => decide (p.name = playerName))).head?).map (fun p => p.id)

/-- The weeks of the requested season (`weeks_df[weeks_df['season_year'] == season_year]`
as computed inside `get_player_history`). -/
def seasonWeeksOf (s : Snapshot) (seasonYear : ℚ) : List Week :=
  s.weeks.filter (fun w => decide (w.season_year = some seasonYear))

/-- The merged row built for a season week and, when present, a matching
result: the left join produces NaN result fields for unmatched weeks, the
`accuracy` column is computed before `status`/`correct_guesses` are
NaN-filled with `'no_result'`/`0`. -/
def histRow (w : Week) : Option Result → HistoryRow
  | none =>
      { week_number := w.week_number
        week_date := w.week_date
        total_games := w.total_games
        correct_guesses := 0
        accuracy := none
        status := "no_result" }
  | some r =>
      { week_number := w.week_number
        week_date := w.week_date
        total_games := w.total_games
        correct_guesses := (r.correct_guesses.getD 0)
        accuracy :=
          match r.correct_guesses, w.total_games with
          | some c, some t =>
            if ¬ r.status = "omitted" ∧ 0 < t then some (c / t * 100) else none
          | _, _ => none
        status := r.status }

/-- The left join `weeks_df.merge(player_results, left_on='id',
right_on='week_id', how='left')`: one row per matching result, one NaN-filled
row when there is none; left order, then right order, is preserved. -/
def mergedHistory : List Week → List Result → List HistoryRow
  | [], _ => []
  | w :: ws, pres =>
    (match pres.filter (fun r => decide (r.week_id = w.id)) with
     | [] => [histRow w none]
     | ms => ms.map (fun r => histRow w (some r))) ++ mergedHistory ws pres

/-- `get_player_history(data, player_name, season_year)` (source lines
1004–1068).  The source's final sort is pandas quicksort (unstable); the
embedding sorts stably, which only matters for ties on `week_number`. -/
def get_player_history (s : Snapshot) (playerName : String) (seasonYear : ℚ) :
    List HistoryRow :=
  if s.players = [] ∨ s.weeks = [] then []
  else
    match lookupPlayer s.players playerName with
    | none => []
    | some pid =>
      let sw := seasonWeeksOf s seasonYear
      let pres := s.results.filter (fun r => decide (r.player_id = pid))
      let history := mergedHistory sw pres
      if history = [] then []
      else history.insertionSort histLe

/-- The values returned by `linear_regression_improved`.  The source returns
`(slope, intercept, r_value, is_significant, std_err)`; its only analysed
caller uses `r_value` exclusively through `r_value ** 2`, and since
`r_value = num_r / sqrt(prod)` the embedding returns that square,
`rsq = num_r^2 / prod`, directly instead of the irrational `r_value`.
`std_err` is used by no analysed caller and is omitted. -/
structure RegResult where
  slope : Option ℚ
  intercept : Option ℚ
  rsq : Option ℚ
  significant : Bool
deriving DecidableEq, Repr

/-- `linear_regression_improved(x, y)` (source lines 300–349) over
possibly-NaN inputs.  A NaN anywhere poisons the numpy sums and hence the
returned statistics, and every comparison with NaN is `False`. -/
def linear_regression_improved (x y : List (Option ℚ)) : RegResult :=
  if x.length < 3 ∨ y.length < 3 ∨ x.length ≠ y.length then
    ⟨some 0, some 0, some 0, false⟩
  else
    let n : ℚ := x.length
    let sum_x := oSum x
    let sum_y := oSum y
    let sum_xy := oSum (List.zipWith oMul x y)
    let sum_x2 := oSum (List.zipWith oMul x x)
    let sum_y2 := oSum (List.zipWith oMul y y)
    let denominator := oSub (oSMul n sum_x2) (oMul sum_x sum_x)
    if denominator = some 0 then
      ⟨some 0, oDiv sum_y (some n), some 0, false⟩
    else
      let num_r := oSub (oSMul n sum_xy) (oMul sum_x sum_y)
      let slope := oDiv num_r denominator
      let intercept := oDiv (oSub sum_y (oMul slope sum_x)) (some n)
      let prod := oMul denominator (oSub (oSMul n sum_y2) (oMul sum_y sum_y))
      let rsq :=
        match prod with
        | none => none
        | some pr =>
          if pr = 0 then some 0
          else if pr < 0 then none
          else (oMul num_r num_r).map (fun v => v / pr)
      let significant := oGeB (oAbs slope) (3/4) && oGeB rsq (1/4)
      ⟨slope, intercept, rsq, significant⟩

/-- One row of the table produced by `calculate_improvement_trends`.
`volatility_sq` holds the sample variance whose square root (rounded to one
decimal) the source stores as `volatility`; no analysed claim involves it. -/
structure TrendRow where
  player_name : String
  weeks_played : ℕ
  overall_accuracy : Option ℚ
  early_avg : Option ℚ
  recent_avg : Option ℚ
  improvement : Option ℚ
  trend_slope : Option ℚ
  trend_r_squared : Option ℚ
  volatility_sq : Option ℚ
  trend_category : String
  trend_significance : String
deriving DecidableEq, Repr

/-- The ordering of the trend analyzer's `sort_values('week_number')` on
result/week pairs. -/
def rwLe (a b : Result × Week) : Prop := wnKey a.2.week_number ≤ wnKey b.2.week_number

instance : DecidableRel rwLe := fun a b =>
  inferInstanceAs (Decidable (wnKey a.2.week_number ≤ wnKey b.2.week_number))

/-- The player's participated in-season results joined to their weeks
(`player_results.merge(season_weeks[...], left_on='week_id', right_on='id')`,
an inner join preserving left order then right order) and sorted by
`week_number`.  The source's quicksort is unstable; the embedding's stable
sort can differ only on ties in `week_number`. -/
def playerWeeks (seasonWeeks : List Week) (pres : List Result) : List (Result × Week) :=
  (pres.flatMap (fun r =>
    (seasonWeeks.filter (fun w => decide (w.id = r.week_id))).map (fun w => (r, w)))
  ).insertionSort rwLe

/-- Per-row accuracy `correct_guesses / total_games * 100` in float
arithmetic: NaN operands give NaN, and a zero `total_games` gives a
non-finite value, both modelled as `none` (no analysed claim involves a zero
`total_games`). -/
def oAcc (correct total : Option ℚ) : Option ℚ :=
  match correct, total with
  | some c, some t => if t = 0 then none else some (c / t * 100)
  | _, _ => none

/-- The participated in-season results of one player
(source lines 1102–1106). -/
def trendResults (seasonWeeks : List Week) (results : List Result) (p : Player) :
    List Result :=
  results.filter (fun r => decide (r.player_id = p.id ∧
    r.week_id ∈ seasonWeeks.map (fun w => w.id) ∧ r.status = "participated"))

/-- The `x` vector (week numbers) and `y` vector (accuracies) handed to the
regression for one player. -/
def playerSeries (seasonWeeks : List Week) (results : List Result) (p : Player) :
    List (Option ℚ) × List (Option ℚ) :=
  let pw := playerWeeks seasonWeeks (trendResults seasonWeeks results p)
  (pw.map (fun rw => rw.2.week_number),
   pw.map (fun rw => oAcc rw.1.correct_guesses rw.2.total_games))

/-- The regression run for one player by `calculate_improvement_trends`. -/
def playerReg (seasonWeeks : List Week) (results : List Result) (p : Player) :
    RegResult :=
  linear_regression_improved (playerSeries seasonWeeks results p).1
    (playerSeries seasonWeeks results p).2

/-- The body of the per-player loop of `calculate_improvement_trends`
(source lines 1097–1163); `none` when the player does not qualify
(`continue`). -/
def playerTrendRow (seasonWeeks : List Week) (results : List Result)
    (minWeeks : ℕ) (p : Player) : Option TrendRow :=
  let pres := trendResults seasonWeeks results p
  if pres.length < minWeeks then none
  else
    let pw := playerWeeks seasonWeeks pres
    let accs := pw.map (fun rw => oAcc rw.1.correct_guesses rw.2.total_games)
    if pw.length < minWeeks then none
    else
      let reg := playerReg seasonWeeks results p
      let r_squared := reg.rsq
      let is_significant := oGeB (oAbs reg.slope) (3/4) && oGeB r_squared (1/4)
      let early_avg := pMean (accs.take minWeeks)
      let recent_avg := pMean (accs.drop (accs.length - minWeeks))
      let overall_avg := pMean accs
      let volatility_sq := pVar accs
      let trend_category :=
        if oLtB (oAbs reg.slope) (1/2) then "Stable"
        else if oGtB reg.slope (1/2) then "Improving"
        else "Declining"
      some
        { player_name := p.name
          weeks_played := pw.length
          overall_accuracy := overall_avg.map round1
          early_avg := early_avg.map round1
          recent_avg := recent_avg.map round1
          improvement := (oSub recent_avg early_avg).map round1
          trend_slope := reg.slope.map round2
          trend_r_squared := r_squared.map round3
          volatility_sq := volatility_sq
          trend_category := trend_category
          trend_significance := if is_significant then "Meaningful" else "Inconclusive" }

/-- `calculate_improvement_trends(data, season_year, min_weeks=3)` (source
lines 1070–1169). -/
def calculate_improvement_trends (s : Snapshot) (seasonYear : ℚ) (minWeeks : ℕ) :
    List TrendRow :=
  if s.players = [] ∨ s.weeks = [] ∨ s.results = [] then []
  else
    let seasonWeeks := s.weeks.filter (fun w => decide (w.season_year = some seasonYear))
    if seasonWeeks = [] then []
    else s.players.filterMap (playerTrendRow seasonWeeks s.results minWeeks)

/-- One row of the table produced by `get_rolling_averages`: a participated
history row with the two added rolling columns.  `rolling_var` holds the
sample variance whose square root the source stores as `rolling_std`; no
analysed claim involves it. -/
structure RollingRow where
  week_number : Option ℚ
  week_date : String
  total_games : Option ℚ
  correct_guesses : ℚ
  accuracy : Option ℚ
  status : String
  rolling_avg : Option ℚ
  rolling_var : Option ℚ
deriving DecidableEq, Repr

/-- `Series.rolling(window, min_periods=1).mean()`: at position `i` the
trailing window covers positions `i+1-window .. i`; NaN entries are skipped
and the result is NaN when no non-NaN value is in the window. -/
def rollingMeans (window : ℕ) (l : List (Option ℚ)) : List (Option ℚ) :=
  (List.range l.length).map (fun i =>
    let lo := i + 1 - window
    let vs := ((l.drop lo).take (i + 1 - lo)).filterMap id
    if vs.length = 0 then none else some (vs.sum / (vs.length : ℚ)))

/-- `Series.rolling(window, min_periods=1).std()` reported as the sample
variance (see `RollingRow.rolling_var`): NaN when fewer than two non-NaN
values are in the trailing window. -/
def rollingVars (window : ℕ) (l : List (Option ℚ)) : List (Option ℚ) :=
  (List.range l.length).map (fun i =>
    let lo := i + 1 - window
    let vs := ((l.drop lo).take (i + 1 - lo)).filterMap id
    if vs.length < 2 then none
    else
      let m := vs.sum / (vs.length : ℚ)
      some ((vs.map (fun v => (v - m) ^ 2)).sum / ((vs.length : ℚ) - 1)))

/-- The participated rows of a player's history
(`history[history['status'] == 'participated']`). -/
def participatedRows (s : Snapshot) (playerName : String) (seasonYear : ℚ) :
    List HistoryRow :=
  (get_player_history s playerName seasonYear).filter
    (fun h => decide (h.status = "participated"))

/-- `get_rolling_averages(data, player_name, season_year, window=3)` (source
lines 1171–1191).  `window = 0` makes `rolling(window=0, min_periods=1)`
raise, which the `except` handler turns into an empty table. -/
def get_rolling_averages (s : Snapshot) (playerName : String) (seasonYear : ℚ)
    (window : ℕ) : List RollingRow :=
  if get_player_history s playerName seasonYear = [] then []
  else
    let participated := participatedRows s playerName seasonYear
    if participated.length < window then []
    else if window = 0 then []
    else
      let accs := participated.map (fun h => h.accuracy)
      List.zipWith
        (fun (h : HistoryRow) (p : Option ℚ × Option ℚ) =>
          { week_number := h.week_number
            week_date := h.week_date
            total_games := h.total_games
            correct_guesses := h.correct_guesses
            accuracy := h.accuracy
            status := h.status
            rolling_avg := p.1
            rolling_var := p.2 : RollingRow })
        participated ((rollingMeans window accs).zip (rollingVars window accs))

/-- Modelled from the spec (§4.4): `rolling_avg[i]` is the mean of the
accuracy values in the trailing window of size `min(window, i+1)` ending at
`i`.  Used as the specification side of the refinement claim about
`get_rolling_averages`. -/
def specRollingAvg (window : ℕ) (vals : List ℚ) : List ℚ :=
  (List.range vals.length).map (fun i =>
    let sz := min window (i + 1)
    let win := (vals.take (i + 1)).drop (i + 1 - sz)
    win.sum / (win.length : ℚ))

/-- Deduplication of the `results` collection: keep, for every
`(player_id, week_id)` pair, only the first record. -/
def dedupAux (seen : List (String × String)) : List Result → List Result
  | [] => []
  | r :: rs =>
    if (r.player_id, r.week_id) ∈ seen then dedupAux seen rs
    else r :: dedupAux ((r.player_id, r.week_id) :: seen) rs

/-- All but the first result per `(player_id, week_id)` pair removed. -/
def dedupResults (results : List Result) : List Result := dedupAux [] results

/-- The snapshot with its results deduplicated. -/
def dedupSnap (s : Snapshot) : Snapshot :=
  { players := s.players, weeks := s.weeks, results := dedupResults s.results }

/-- The fields of a standings row that do not count duplicate results:
everything except `weeks_adjusted` and `omitted_weeks`. -/
def projTotals (r : StandingsRow) :
    String × ℕ × ℤ × ℤ × ℚ × ℤ × ℤ × ℚ :=
  (r.player_name, r.weeks_absolute, r.correct_absolute, r.possible_absolute,
   r.accuracy_absolute, r.correct_adjusted, r.possible_adjusted,
   r.accuracy_adjusted)

/-- Scenario A (spec §8): one player, two weeks of `total_games = 10`, week 1
participated with 7 correct, week 2 omitted. -/
def snapA : Snapshot :=
  { players := [{ id := "p1", name := "Alice" }]
    weeks :=
      [{ id := "w1", week_number := some 1, season_year := some 2024,
         total_games := some 10, week_date := "2024-01-01" },
       { id := "w2", week_number := some 2, season_year := some 2024,
         total_games := some 10, week_date := "2024-01-08" }]
    results :=
      [{ player_id := "p1", week_id := "w1", correct_guesses := some 7,
         status := "participated" },
       { player_id := "p1", week_id := "w2", correct_guesses := none,
         status := "omitted" }] }

/-- The standings row Scenario A produces. -/
def rowA : StandingsRow :=
  { player_name := "Alice"
    weeks_absolute := 2
    correct_absolute := 7
    possible_absolute := 20
    accuracy_absolute := 35
    weeks_adjusted := 1
    correct_adjusted := 7
    possible_adjusted := 10
    accuracy_adjusted := 70
    omitted_weeks := 1 }

/-- A snapshot whose single qualifying player has per-week accuracies
`0, 0.5, 1` over weeks `1, 2, 3`, giving a regression slope of exactly
`0.5`. -/
def snapHalf : Snapshot :=
  { players := [{ id := "p1", name := "Alice" }]
    weeks :=
      [{ id := "w1", week_number := some 1, season_year := some 2024,
         total_games := some 200, week_date := "2024-01-01" },
       { id := "w2", week_number := some 2, season_year := some 2024,
         total_games := some 200, week_date := "2024-01-08" },
       { id := "w3", week_number := some 3, season_year := some 2024,
         total_games := some 200, week_date := "2024-01-15" }]
    results :=
      [{ player_id := "p1", week_id := "w1", correct_guesses := some 0,
         status := "participated" },
       { player_id := "p1", week_id := "w2", correct_guesses := some 1,
         status := "participated" },
       { player_id := "p1", week_id := "w3", correct_guesses := some 2,
         status := "participated" }] }

/-- Scenario C (spec §8): accuracies `50, 55, 60, 65, 70` over weeks
`1..5`. -/
def snapC : Snapshot :=
  { players := [{ id := "p1", name := "Alice" }]
    weeks :=
      [{ id := "w1", week_number := some 1, season_year := some 2024,
         total_games := some 100, week_date := "2024-01-01" },
       { id := "w2", week_number := some 2, season_year := some 2024,
         total_games := some 100, week_date := "2024-01-08" },
       { id := "w3", week_number := some 3, season_year := some 2024,
         total_games := some 100, week_date := "2024-01-15" },
       { id := "w4", week_number := some 4, season_year := some 2024,
         total_games := some 100, week_date := "2024-01-22" },
       { id := "w5", week_number := some 5, season_year := some 2024,
         total_games := some 100, week_date := "2024-01-29" }]
    results :=
      [{ player_id := "p1", week_id := "w1", correct_guesses := some 50,
         status := "participated" },
       { player_id := "p1", week_id := "w2", correct_guesses := some 55,
         status := "participated" },
       { player_id := "p1", week_id := "w3", correct_guesses := some 60,
         status := "participated" },
       { player_id := "p1", week_id := "w4", correct_guesses := some 65,
         status := "participated" },
       { player_id := "p1", week_id := "w5", correct_guesses := some 70,
         status := "participated" }] }

/-- A snapshot with two results for the same `(player, week)` pair. -/
def snapDup : Snapshot :=
  { players := [{ id := "p1", name := "Alice" }]
    weeks :=
      [{ id := "w1", week_number := some 1, season_year := some 2024,
         total_games := some 10, week_date := "2024-01-01" }]
    results :=
      [{ player_id := "p1", week_id := "w1", correct_guesses := some 7,
         status := "participated" },
       { player_id := "p1", week_id := "w1", correct_guesses := some 3,
         status := "participated" }] }

/-- A snapshot whose only participated result is within bounds but whose
second in-scope week has a negative `total_games`. -/
def snapNeg : Snapshot :=
  { players := [{ id := "p1", name := "Alice" }]
    weeks :=
      [{ id := "w1", week_number := some 1, season_year := some 2024,
         total_games := some 10, week_date := "2024-01-01" },
       { id := "w2", week_number := some 2, season_year := some 2024,
         total_games := some (-5), week_date := "2024-01-08" }]
    results :=
      [{ player_id := "p1", week_id := "w1", correct_guesses := some 10,
         status := "participated" }] }

/-- A snapshot with one well-formed week (participated, 7 of 10) and one
in-scope week whose `total_games` failed numeric coercion. -/
def snapMal : Snapshot :=
  { players := [{ id := "p1", name := "Alice" }]
    weeks :=
      [{ id := "w1", week_number := some 1, season_year := some 2024,
         total_games := none, week_date := "2024-01-01" },
       { id := "w2", week_number := some 2, season_year := some 2024,
         total_games := some 10, week_date := "2024-01-08" }]
    results :=
      [{ player_id := "p1", week_id := "w2", correct_guesses := some 7,
         status := "participated" }] }

/-- `snapMal` with the malformed week removed: the well-formed remainder. -/
def snapMalClean : Snapshot :=
  { players := snapMal.players
    weeks :=
      [{ id := "w2", week_number := some 2, season_year := some 2024,
         total_games := some 10, week_date := "2024-01-08" }]
    results := snapMal.results }

/-- Scenario E (spec §8): participated accuracies `40, 60, 80, 100` over
weeks `1..4`. -/
def snapRoll : Snapshot :=
  { players := [{ id := "p1", name := "Alice" }]
    weeks :=
      [{ id := "w1", week_number := some 1, season_year := some 2024,
         total_games := some 10, week_date := "2024-01-01" },
       { id := "w2", week_number := some 2, season_year := some 2024,
         total_games := some 10, week_date := "2024-01-08" },
       { id := "w3", week_number := some 3, season_year := some 2024,
         total_games := some 10, week_date := "2024-01-15" },
       { id := "w4", week_number := some 4, season_year := some 2024,
         total_games := some 10, week_date := "2024-01-22" }]
    results :=
      [{ player_id := "p1", week_id := "w1", correct_guesses := some 4,
         status := "participated" },
       { player_id := "p1", week_id := "w2", correct_guesses := some 6,
         status := "participated" },
       { player_id := "p1", week_id := "w3", correct_guesses := some 8,
         status := "participated" },
       { player_id := "p1", week_id := "w4", correct_guesses := some 10,
         status := "participated" }] }

/-- The data-model invariant `0 ≤ correct_guesses ≤ total_games` for one
result against one week, vacuously true when either value is missing. -/
def withinBoundsB (r : Result) (w : Week) : Bool :=
  match r.correct_guesses, w.total_games with
  | some c, some t => decide (0 ≤ c ∧ c ≤ t)
  | _, _ => true

/-- A week's `total_games`, when numeric, is nonnegative. -/
def weekTotalNonnegB (w : Week) : Bool :=
  match w.total_games with
  | some t => decide (0 ≤ t)
  | none => true

/-- Every in-scope week has a nonnegative numeric `total_games` (when the
value coerced at all). -/
def weekTotalsNonneg (s : Snapshot) (y : ℚ) (wn : Option ℚ) : Prop :=
  ∀ w ∈ inScopeWeeks s y wn, weekTotalNonnegB w = true

/-- Every result not marked omitted is within bounds for every in-scope week
it refers to. -/
def nonOmittedWithinBounds (s : Snapshot) (y : ℚ) (wn : Option ℚ) : Prop :=
  ∀ r ∈ s.results, ¬ r.status = "omitted" →
    ∀ w ∈ inScopeWeeks s y wn, r.week_id = w.id → withinBoundsB r w = true

/-- The hypothesis exactly as the accuracy-bound claim states it: every
participated result is within bounds for every in-scope week it refers
to. -/
def participatedWithinBounds (s : Snapshot) (y : ℚ) (wn : Option ℚ) : Prop :=
  ∀ r ∈ s.results, r.status = "participated" →
    ∀ w ∈ inScopeWeeks s y wn, r.week_id = w.id → withinBoundsB r w = true

/-- The resolved player has at most one result per week of the requested
season. -/
def atMostOneResultPerWeek (s : Snapshot) (pid : String) (y : ℚ) : Prop :=
  ∀ w ∈ seasonWeeksOf s y,
    ((s.results.filter (fun r => decide (r.player_id = pid))).filter
      (fun r => decide (r.week_id = w.id))).length ≤ 1

/-- Every stored result status is one of the two documented values. -/
def statusesCanonical (s : Snapshot) : Prop :=
  ∀ r ∈ s.results, r.status = "participated" ∨ r.status = "omitted"

instance (s : Snapshot) (y : ℚ) (wn : Option ℚ) : Decidable (weekTotalsNonneg s y wn) := by
  unfold weekTotalsNonneg; infer_instance

instance (s : Snapshot) (y : ℚ) (wn : Option ℚ) :
    Decidable (nonOmittedWithinBounds s y wn) := by
  unfold nonOmittedWithinBounds; infer_instance

instance (s : Snapshot) (y : ℚ) (wn : Option ℚ) :
    Decidable (participatedWithinBounds s y wn) := by
  unfold participatedWithinBounds; infer_instance

instance (s : Snapshot) (pid : String) (y : ℚ) :
    Decidable (atMostOneResultPerWeek s pid y) := by
  unfold atMostOneResultPerWeek; infer_instance

instance (s : Snapshot) : Decidable (statusesCanonical s) := by
  unfold statusesCanonical; infer_instance

/-- The trend row Scenario C produces. -/
def rowC : TrendRow :=
  { player_name := "Alice"
    weeks_played := 5
    overall_accuracy := some 60
    early_avg := some 55
    recent_avg := some 65
    improvement := some 10
    trend_slope := some 5
    trend_r_squared := some 1
    volatility_sq := some (125/2)
    trend_category := "Improving"
    trend_significance := "Meaningful" }

/-- The standings row `snapMalClean` produces. -/
def rowMalClean : StandingsRow :=
  { player_name := "Alice"
    weeks_absolute := 1
    correct_absolute := 7
    possible_absolute := 10
    accuracy_absolute := 70
    weeks_adjusted := 1
    correct_adjusted := 7
    possible_adjusted := 10
    accuracy_adjusted := 70
    omitted_weeks := 0 }

attribute [local semireducible] Rat.mul Rat.add Rat.sub Rat.inv Rat.ofScientific

/-- C1: Scenario A.  For a snapshot with exactly one player, two weeks in the
requested season each with `total_games = 10`, and two results for that player
(week 1 participated with 7 correct, week 2 omitted), `calculate_standings`
returns a one-row table with `correct_absolute = 7`, `possible_absolute = 20`,
`accuracy_absolute = 35.0`, `correct_adjusted = 7`, `possible_adjusted = 10`,
`accuracy_adjusted = 70.0` and `omitted_weeks = 1`. -/
theorem C1_scenarioA_standings : calculate_standings snapA 2024 none = [rowA] := by
  decide

theorem playerRow_conservation {weeks2 : List Week} {results : List Result}
    {p : Player} {row : StandingsRow} (h : playerRow weeks2 results p = .ok row) :
    (row.weeks_absolute : ℤ) = (row.weeks_adjusted : ℤ) + row.omitted_weeks := by
  simp only [playerRow] at h
  split at h
  · exact absurd h (by simp)
  · obtain rfl : _ = row := by simpa using h
    simp

theorem standingsRows_mem {weeks2 : List Week} {results : List Result} :
    ∀ {ps : List Player} {rows : List StandingsRow} {row : StandingsRow},
      standingsRows weeks2 results ps = .ok rows → row ∈ rows →
      ∃ p, playerRow weeks2 results p = .ok row := by
  intro ps
  induction ps with
  | nil =>
    intro rows row h hm
    unfold standingsRows at h
    obtain rfl : [] = rows := by simpa using h
    simp at hm
  | cons p ps ih =>
    intro rows row h hm
    unfold standingsRows at h
    rcases hp : playerRow weeks2 results p with e | r <;> rw [hp] at h
    · simp at h
    · rcases hs : standingsRows weeks2 results ps with e | rs <;> rw [hs] at h
      · simp at h
      · obtain rfl : r :: rs = rows := by simpa using h
        rcases List.mem_cons.mp hm with rfl | hm2
        · exact ⟨p, hp⟩
        · exact ih hs hm2

theorem mem_standings {s : Snapshot} {y : ℚ} {wn : Option ℚ} {row : StandingsRow}
    (h : row ∈ calculate_standings s y wn) :
    ∃ p, playerRow (inScopeWeeks s y wn) s.results p = .ok row := by
  simp only [calculate_standings] at h
  split at h
  · simp at h
  · split at h
    · simp at h
    · rcases hs : standingsRows (inScopeWeeks s y wn) s.results s.players
        with e | rows <;> rw [hs] at h
      · simp at h
      · exact standingsRows_mem hs h

/-- C3: every row of every `calculate_standings` output satisfies
`weeks_absolute = weeks_adjusted + omitted_weeks`. -/
theorem C3_conservation (s : Snapshot) (y : ℚ) (wn : Option ℚ) (row : StandingsRow)
    (h : row ∈ calculate_standings s y wn) :
    (row.weeks_absolute : ℤ) = (row.weeks_adjusted : ℤ) + row.omitted_weeks := by
  obtain ⟨p, hp⟩ := mem_standings h
  exact playerRow_conservation hp

/-- Witness for C3 at Scenario A. -/
theorem C3_conservation_witness :
    rowA ∈ calculate_standings snapA 2024 none ∧
    (rowA.weeks_absolute : ℤ) = (rowA.weeks_adjusted : ℤ) + rowA.omitted_weeks :=
  ⟨by decide, C3_conservation snapA 2024 none rowA (by decide)⟩

/-- C2 counterexample: a regression slope of exactly `0.5` (player accuracies
`0, 0.5, 1` over weeks `1, 2, 3`) is classified "Declining" by
`calculate_improvement_trends`, although `0.5 ≤ -0.5` fails — so "Declining"
is not confined to slopes `≤ -0.5`. -/
theorem C2_slope_half_declining :
    (playerReg (seasonWeeksOf snapHalf 2024) snapHalf.results
      { id := "p1", name := "Alice" }).slope = some (1/2) ∧
    (calculate_improvement_trends snapHalf 2024 3).map
      (fun r => r.trend_category) = ["Declining"] ∧
    ¬ ((1/2 : ℚ) ≤ -(1/2)) := by
  decide

/-- C2 (amended): for every qualifying player, with `sl` the regression slope
of the player's accuracy series, `|sl| < 0.5` yields "Stable", `sl > 0.5`
yields "Improving", and `sl ≤ -0.5` yields "Declining"; in addition the
boundary value `sl = 0.5` itself yields "Declining", and no slope outside
`sl ≤ -0.5` or `sl = 0.5` yields "Declining". -/
theorem C2_trend_category (sw : List Week) (res : List Result) (mw : ℕ)
    (p : Player) (row : TrendRow) (sl : ℚ)
    (hrow : playerTrendRow sw res mw p = some row)
    (hsl : (playerReg sw res p).slope = some sl) :
    (|sl| < 1/2 → row.trend_category = "Stable") ∧
    (1/2 < sl → row.trend_category = "Improving") ∧
    ((sl ≤ -(1/2) ∨ sl = 1/2) → row.trend_category = "Declining") ∧
    (row.trend_category = "Declining" → sl ≤ -(1/2) ∨ sl = 1/2) := by
  simp only [playerTrendRow] at hrow
  split at hrow
  · simp at hrow
  split at hrow
  · simp at hrow
  obtain rfl : _ = row := by simpa using hrow
  simp only [hsl, oAbs, Option.map_some', oLtB, oGtB, decide_eq_true_eq]
  simp only [show ((2:ℚ)⁻¹) = 1/2 from by norm_num]
  refine ⟨?_, ?_, ?_, ?_⟩
  · intro h1
    rw [if_pos h1]
  · intro h1
    have h2 : ¬ |sl| < 1/2 := by
      rw [abs_lt]
      push_neg
      intro h3
      exact le_of_lt h1
    rw [if_neg h2, if_pos h1]
  · intro h1
    have h2 : ¬ |sl| < 1/2 := by
      rw [abs_lt]
      push_neg
      intro h3
      rcases h1 with h4 | h4
      · exact absurd h3 (not_lt.mpr h4)
      · exact le_of_eq h4.symm
    have h3 : ¬ (1/2 : ℚ) < sl := by
      rcases h1 with h4 | h4
      · exact not_lt.mpr (le_trans h4 (by norm_num))
      · exact not_lt.mpr (le_of_eq h4)
    rw [if_neg h2, if_neg h3]
  · intro h1
    by_cases ha : |sl| < 1/2
    · rw [if_pos ha] at h1
      exact absurd h1 (by decide)
    by_cases hb : (1/2 : ℚ) < sl
    · rw [if_neg ha, if_pos hb] at h1
      exact absurd h1 (by decide)
    push_neg at hb
    have h4 := abs_lt.not.mp ha
    push_neg at h4
    rcases le_or_lt sl (-(1/2)) with h5 | h5
    · exact Or.inl h5
    · exact Or.inr (le_antisymm hb (h4 h5))

/-- Witness for C2 at Scenario C (slope 5, "Improving"). -/
theorem C2_trend_category_witness :
    playerTrendRow (seasonWeeksOf snapC 2024) snapC.results 3
      { id := "p1", name := "Alice" } = some rowC ∧
    (playerReg (seasonWeeksOf snapC 2024) snapC.results
      { id := "p1", name := "Alice" }).slope = some 5 ∧
    rowC.trend_category = "Improving" :=
  ⟨by decide, by decide,
    (C2_trend_category (seasonWeeksOf snapC 2024) snapC.results 3
      { id := "p1", name := "Alice" } rowC 5 (by decide) (by decide)).2.1
      (by norm_num)⟩

/-- C5: in `calculate_improvement_trends` a qualifying player's
`trend_significance` is "Meaningful" exactly when `|slope| ≥ 0.75` and
`r_squared ≥ 0.25`, and "Inconclusive" otherwise; and Scenario C
(accuracies `50, 55, 60, 65, 70` over weeks `1..5`) yields
`trend_slope = 5.0`, `trend_r_squared = 1`, category "Improving" and
significance "Meaningful". -/
theorem C5_significance :
    (∀ (sw : List Week) (res : List Result) (mw : ℕ) (p : Player)
      (row : TrendRow) (sl rq : ℚ),
      playerTrendRow sw res mw p = some row →
      (playerReg sw res p).slope = some sl →
      (playerReg sw res p).rsq = some rq →
      ((row.trend_significance = "Meaningful" ↔ (3/4 ≤ |sl| ∧ 1/4 ≤ rq)) ∧
       (row.trend_significance = "Inconclusive" ↔ ¬ (3/4 ≤ |sl| ∧ 1/4 ≤ rq)))) ∧
    calculate_improvement_trends snapC 2024 3 = [rowC] := by
  constructor
  · intro sw res mw p row sl rq hrow hsl hrq
    simp only [playerTrendRow] at hrow
    split at hrow
    · simp at hrow
    split at hrow
    · simp at hrow
    obtain rfl : _ = row := by simpa using hrow
    simp only [hsl, hrq, oAbs, Option.map_some', oGeB, decide_eq_true_eq]
    simp only [show ((4:ℚ)⁻¹) = 1/4 from by norm_num]
    by_cases h1 : (3/4 : ℚ) ≤ |sl| <;> by_cases h2 : (1/4 : ℚ) ≤ rq
    · rw [if_pos ⟨h1, h2⟩]
      constructor
      · exact ⟨fun _ => ⟨h1, h2⟩, fun _ => rfl⟩
      · constructor
        · intro hc
          exact absurd hc (by decide)
        · intro hc
          exact absurd ⟨h1, h2⟩ hc
    · rw [if_neg (by intro hc; exact h2 hc.2)]
      constructor
      · constructor
        · intro hc
          exact absurd hc (by decide)
        · intro hc
          exact absurd hc.2 h2
      · exact ⟨fun _ => (by intro hc; exact h2 hc.2), fun _ => rfl⟩
    · rw [if_neg (by intro hc; exact h1 hc.1)]
      constructor
      · constructor
        · intro hc
          exact absurd hc (by decide)
        · intro hc
          exact absurd hc.1 h1
      · exact ⟨fun _ => (by intro hc; exact h1 hc.1), fun _ => rfl⟩
    · rw [if_neg (by intro hc; exact h1 hc.1)]
      constructor
      · constructor
        · intro hc
          exact absurd hc (by decide)
        · intro hc
          exact absurd hc.1 h1
      · exact ⟨fun _ => (by intro hc; exact h1 hc.1), fun _ => rfl⟩
  · decide

/-- Witness for C5 at Scenario C. -/
theorem C5_significance_witness :
    playerTrendRow (seasonWeeksOf snapC 2024) snapC.results 3
      { id := "p1", name := "Alice" } = some rowC ∧
    (rowC.trend_significance = "Meaningful" ↔
      ((3:ℚ)/4 ≤ |(5:ℚ)| ∧ (1:ℚ)/4 ≤ (1:ℚ))) :=
  ⟨by decide,
    (C5_significance.1 (seasonWeeksOf snapC 2024) snapC.results 3
      { id := "p1", name := "Alice" } rowC 5 1 (by decide) (by decide)
      (by decide)).1⟩

theorem ratTrunc_nonneg {q : ℚ} (h : 0 ≤ q) : 0 ≤ ratTrunc q := by
  unfold ratTrunc
  rw [if_pos h]
  exact Int.floor_nonneg.mpr h

theorem ratTrunc_mono {a b : ℚ} (ha : 0 ≤ a) (hab : a ≤ b) :
    ratTrunc a ≤ ratTrunc b := by
  unfold ratTrunc
  rw [if_pos ha, if_pos (ha.trans hab)]
  exact Int.floor_le_floor hab

theorem round1_bounds {q : ℚ} (h0 : 0 ≤ q) (h1 : q ≤ 100) :
    0 ≤ round1 q ∧ round1 q ≤ 100 := by
  unfold round1
  constructor
  · apply div_nonneg _ (by norm_num)
    have h2 : (0:ℤ) ≤ round (10 * q) := by
      rw [round_eq]
      apply Int.floor_nonneg.mpr
      linarith
    exact_mod_cast h2
  · rw [div_le_iff₀ (by norm_num : (0:ℚ) < 10)]
    have h2 : round (10 * q) ≤ 1000 := by
      rw [round_eq]
      have h3 : (10 * q + 1/2 : ℚ) < ((1001 : ℤ) : ℚ) := by push_cast; linarith
      have h4 := Int.floor_lt.mpr h3
      omega
    calc ((round (10 * q) : ℤ) : ℚ) ≤ ((1000 : ℤ) : ℚ) := by exact_mod_cast h2
      _ = 100 * 10 := by norm_num

theorem accuracyPct_bounds {c p : ℤ} (h0 : 0 ≤ c) (h1 : c ≤ p) :
    0 ≤ accuracyPct c p ∧ accuracyPct c p ≤ 100 := by
  unfold accuracyPct
  split
  · have hp : (0:ℚ) < (p:ℚ) := by exact_mod_cast ‹0 < p›
    have hc : (0:ℚ) ≤ (c:ℚ) := by exact_mod_cast h0
    have hcp : (c:ℚ) ≤ (p:ℚ) := by exact_mod_cast h1
    apply round1_bounds
    · exact mul_nonneg (div_nonneg hc hp.le) (by norm_num)
    · have h2 : (c:ℚ)/(p:ℚ) ≤ 1 := (div_le_one hp).mpr hcp
      calc (c:ℚ)/(p:ℚ) * 100 ≤ 1 * 100 :=
            mul_le_mul_of_nonneg_right h2 (by norm_num)
        _ = 100 := by norm_num
  · norm_num

theorem firstMatch_mem {pres : List Result} {wid : String} {r : Result}
    (h : firstMatch pres wid = some r) : r ∈ pres ∧ r.week_id = wid := by
  unfold firstMatch at h
  have hm2 := List.mem_filter.mp (List.mem_of_mem_head? h)
  exact ⟨hm2.1, by simpa using hm2.2⟩

theorem sumWeeks_bounds {pres : List Result} :
    ∀ {ws : List Week} {acc t : Totals},
      (∀ w ∈ ws, ∀ tv, w.total_games = some tv → 0 ≤ tv) →
      (∀ w ∈ ws, ∀ r, firstMatch pres w.id = some r → ¬ r.status = "omitted" →
        ∀ c tv, r.correct_guesses = some c → w.total_games = some tv →
          0 ≤ c ∧ c ≤ tv) →
      0 ≤ acc.ca → acc.ca ≤ acc.pa → 0 ≤ acc.cj → acc.cj ≤ acc.pj →
      sumWeeks pres ws acc = .ok t →
      0 ≤ t.ca ∧ t.ca ≤ t.pa ∧ 0 ≤ t.cj ∧ t.cj ≤ t.pj := by
  intro ws
  induction ws with
  | nil =>
    intro acc t _ _ h1 h2 h3 h4 heq
    obtain rfl : acc = t := by simpa [sumWeeks] using heq
    exact ⟨h1, h2, h3, h4⟩
  | cons w ws ih =>
    intro acc t hT hB h1 h2 h3 h4 heq
    have hT2 : ∀ u ∈ ws, ∀ tv, u.total_games = some tv → 0 ≤ tv :=
      fun u hu => hT u (List.mem_cons_of_mem _ hu)
    have hB2 : ∀ u ∈ ws, ∀ r, firstMatch pres u.id = some r →
        ¬ r.status = "omitted" → ∀ c tv, r.correct_guesses = some c →
        u.total_games = some tv → 0 ≤ c ∧ c ≤ tv :=
      fun u hu => hB u (List.mem_cons_of_mem _ hu)
    rw [sumWeeks] at heq
    rcases htg : w.total_games with _ | tv <;> rw [htg] at heq <;>
      dsimp only at heq
    · exact absurd heq (by simp)
    · have htv : (0:ℚ) ≤ tv := hT w (List.mem_cons_self _ _) tv htg
      have htg0 : (0:ℤ) ≤ ratTrunc tv := ratTrunc_nonneg htv
      rcases hfm : firstMatch pres w.id with _ | r <;> rw [hfm] at heq <;>
        dsimp only at heq
      · refine ih hT2 hB2 ?_ ?_ ?_ ?_ heq
        · exact h1
        · exact le_add_of_le_of_nonneg h2 htg0
        · exact h3
        · exact h4
      · by_cases hom : r.status = "omitted"
        · rw [if_pos hom] at heq
          refine ih hT2 hB2 ?_ ?_ ?_ ?_ heq
          · exact h1
          · exact le_add_of_le_of_nonneg h2 htg0
          · exact h3
          · exact h4
        · rw [if_neg hom] at heq
          rcases hcg : r.correct_guesses with _ | c <;> rw [hcg] at heq <;>
            dsimp only at heq
          · refine ih hT2 hB2 ?_ ?_ ?_ ?_ heq
            · simpa using h1
            · simpa using le_add_of_le_of_nonneg h2 htg0
            · simpa using h3
            · simpa using le_add_of_le_of_nonneg h4 htg0
          · have hbc := hB w (List.mem_cons_self _ _) r hfm hom c tv hcg htg
            have hc0 : (0:ℤ) ≤ ratTrunc c := ratTrunc_nonneg hbc.1
            have hct : ratTrunc c ≤ ratTrunc tv := ratTrunc_mono hbc.1 hbc.2
            refine ih hT2 hB2 ?_ ?_ ?_ ?_ heq
            · exact add_nonneg h1 hc0
            · exact add_le_add h2 hct
            · exact add_nonneg h3 hc0
            · exact add_le_add h4 hct

/-- C4 (amended): for every snapshot in which every in-scope week's numeric
`total_games` is nonnegative and every result not marked omitted satisfies
`0 ≤ correct_guesses ≤ total_games` of each in-scope week it refers to, every
`calculate_standings` row has both accuracies in `[0, 100]`. -/
theorem C4_accuracy_bounds (s : Snapshot) (y : ℚ) (wn : Option ℚ)
    (hT : weekTotalsNonneg s y wn) (hB : nonOmittedWithinBounds s y wn) :
    ∀ row ∈ calculate_standings s y wn,
      0 ≤ row.accuracy_absolute ∧ row.accuracy_absolute ≤ 100 ∧
      0 ≤ row.accuracy_adjusted ∧ row.accuracy_adjusted ≤ 100 := by
  intro row hrow
  obtain ⟨p, hp⟩ := mem_standings hrow
  simp only [playerRow] at hp
  rcases hsw : sumWeeks
      (List.filter
        (fun r => decide (r.player_id = p.id ∧
          r.week_id ∈ List.map (fun w => w.id) (inScopeWeeks s y wn)))
        s.results)
      (inScopeWeeks s y wn) ⟨0, 0, 0, 0⟩ with e | t <;> rw [hsw] at hp
  · exact absurd hp (by simp)
  · have hT2 : ∀ w ∈ inScopeWeeks s y wn, ∀ tv, w.total_games = some tv →
        (0:ℚ) ≤ tv := by
      intro w hw tv htg
      have h5 := hT w hw
      unfold weekTotalNonnegB at h5
      rw [htg] at h5
      exact of_decide_eq_true h5
    have hB2 : ∀ w ∈ inScopeWeeks s y wn, ∀ r,
        firstMatch
          (List.filter
            (fun r => decide (r.player_id = p.id ∧
              r.week_id ∈ List.map (fun w => w.id) (inScopeWeeks s y wn)))
            s.results) w.id = some r →
        ¬ r.status = "omitted" → ∀ c tv, r.correct_guesses = some c →
        w.total_games = some tv → 0 ≤ c ∧ c ≤ tv := by
      intro w hw r hfm hom c tv hcg htg
      have hmem := firstMatch_mem hfm
      have hr : r ∈ s.results := (List.mem_filter.mp hmem.1).1
      have hb := hB r hr hom w hw hmem.2
      unfold withinBoundsB at hb
      rw [hcg, htg] at hb
      exact of_decide_eq_true hb
    have hbounds := sumWeeks_bounds hT2 hB2 (le_refl 0) (le_refl 0)
      (le_refl 0) (le_refl 0) hsw
    obtain rfl : _ = row := by simpa using hp
    have habs := accuracyPct_bounds hbounds.1 hbounds.2.1
    have hadj := accuracyPct_bounds hbounds.2.2.1 hbounds.2.2.2
    exact ⟨habs.1, habs.2, hadj.1, hadj.2⟩

/-- C4 counterexample: under the claim's own hypothesis (the only
participated result has `0 ≤ 10 ≤ 10`), an in-scope week with
`total_games = -5` drives `accuracy_absolute` to `200`, violating the
`≤ 100` bound. -/
theorem C4_negative_total_games :
    participatedWithinBounds snapNeg 2024 none ∧
    (calculate_standings snapNeg 2024 none).map
      (fun r => r.accuracy_absolute) = [200] := by
  decide

/-- Witness for C4 at Scenario A. -/
theorem C4_accuracy_bounds_witness :
    weekTotalsNonneg snapA 2024 none ∧ nonOmittedWithinBounds snapA 2024 none ∧
    (0 ≤ rowA.accuracy_absolute ∧ rowA.accuracy_absolute ≤ 100 ∧
     0 ≤ rowA.accuracy_adjusted ∧ rowA.accuracy_adjusted ≤ 100) :=
  ⟨by decide, by decide,
    C4_accuracy_bounds snapA 2024 none (by decide) (by decide) rowA (by decide)⟩

theorem mergedHistory_length {pres : List Result} :
    ∀ {sw : List Week},
      (∀ w ∈ sw, (pres.filter (fun r => decide (r.week_id = w.id))).length ≤ 1) →
      (mergedHistory sw pres).length = sw.length := by
  intro sw
  induction sw with
  | nil => intro _; rfl
  | cons w ws ih =>
    intro h
    have h2 : ∀ u ∈ ws, (pres.filter (fun r => decide (r.week_id = u.id))).length ≤ 1 :=
      fun u hu => h u (List.mem_cons_of_mem _ hu)
    rw [mergedHistory, List.length_append, ih h2]
    rcases hms : pres.filter (fun r => decide (r.week_id = w.id)) with _ | ⟨r, rest⟩
    · have h5 : (match pres.filter (fun r => decide (r.week_id = w.id)) with
          | [] => [histRow w none]
          | ms => ms.map (fun r => histRow w (some r))) = [histRow w none] := by
        rw [hms]
      rw [h5]
      simp [Nat.add_comm]
    · have h3 := h w (List.mem_cons_self _ _)
      rw [hms] at h3
      have h4 : rest = [] := by
        rcases rest with _ | _
        · rfl
        · simp at h3
      subst h4
      have h5 : (match pres.filter (fun r => decide (r.week_id = w.id)) with
          | [] => [histRow w none]
          | ms => ms.map (fun r => histRow w (some r))) = [histRow w (some r)] := by
        rw [hms]
        rfl
      rw [h5]
      simp [Nat.add_comm]

theorem mergedHistory_eq_nil {pres : List Result} :
    ∀ {sw : List Week}, mergedHistory sw pres = [] → sw = [] := by
  intro sw
  cases sw with
  | nil => intro _; rfl
  | cons w ws =>
    intro h
    rw [mergedHistory] at h
    rcases hms : pres.filter (fun r => decide (r.week_id = w.id)) with _ | ⟨r, rest⟩ <;>
      rw [hms] at h <;> simp at h

theorem mem_mergedHistory_none {pres : List Result} {w : Week} :
    ∀ {sw : List Week}, w ∈ sw →
      pres.filter (fun r => decide (r.week_id = w.id)) = [] →
      histRow w none ∈ mergedHistory sw pres := by
  intro sw
  induction sw with
  | nil => intro hw; simp at hw
  | cons u ws ih =>
    intro hw hfil
    rw [mergedHistory]
    rcases List.mem_cons.mp hw with rfl | hw2
    · apply List.mem_append_left
      rw [hfil]
      simp
    · exact List.mem_append_right _ (ih hw2 hfil)

theorem mem_mergedHistory {pres : List Result} {row : HistoryRow} :
    ∀ {sw : List Week}, row ∈ mergedHistory sw pres →
      ∃ w ∈ sw, row = histRow w none ∨ ∃ r, r ∈ pres ∧ row = histRow w (some r) := by
  intro sw
  induction sw with
  | nil => intro h; simp [mergedHistory] at h
  | cons w ws ih =>
    intro h
    rw [mergedHistory] at h
    rcases List.mem_append.mp h with h1 | h1
    · refine ⟨w, List.mem_cons_self _ _, ?_⟩
      rcases hms : pres.filter (fun r => decide (r.week_id = w.id)) with _ | ⟨r, rest⟩ <;>
        rw [hms] at h1
      · simp at h1
        exact Or.inl h1
      · rw [List.mem_map] at h1
        obtain ⟨r2, hr2, hrow⟩ := h1
        have hr3 : r2 ∈ pres := by
          have := List.mem_filter.mp (hms ▸ hr2)
          exact this.1
        exact Or.inr ⟨r2, hr3, hrow.symm⟩
    · obtain ⟨u, hu, hcase⟩ := ih h1
      exact ⟨u, List.mem_cons_of_mem _ hu, hcase⟩

/-- C6 (amended): for every snapshot whose stored statuses are the two
documented values and in which the resolved player has at most one result per
week of the requested season, `get_player_history` returns one row per week
of that season, ordered ascending by `week_number` (rows with a missing
`week_number` last); weeks without a matching result yield the defaulted
`no_result`/`0` row; and a row's accuracy is non-null — and then equal to
`correct_guesses / total_games * 100` — only when the row is participated
with `total_games > 0`. -/
theorem C6_history (s : Snapshot) (nm : String) (y : ℚ) (pid : String)
    (hpid : lookupPlayer s.players nm = some pid)
    (hdup : atMostOneResultPerWeek s pid y)
    (hst : statusesCanonical s) :
    (get_player_history s nm y).length = (seasonWeeksOf s y).length ∧
    List.Sorted histLe (get_player_history s nm y) ∧
    (∀ w ∈ seasonWeeksOf s y,
      (s.results.filter (fun r => decide (r.player_id = pid))).filter
        (fun r => decide (r.week_id = w.id)) = [] →
      histRow w none ∈ get_player_history s nm y) ∧
    (∀ row ∈ get_player_history s nm y, ∀ a, row.accuracy = some a →
      row.status = "participated" ∧ ∃ t, row.total_games = some t ∧ 0 < t ∧
        a = row.correct_guesses / t * 100) := by
  have hplayers : ¬ s.players = [] := by
    intro h0
    rw [h0] at hpid
    simp [lookupPlayer] at hpid
  by_cases hweeks : s.weeks = []
  · have hout : get_player_history s nm y = [] := by
      simp [get_player_history, hweeks]
    have hsw : seasonWeeksOf s y = [] := by simp [seasonWeeksOf, hweeks]
    rw [hout, hsw]
    refine ⟨rfl, List.sorted_nil, ?_, ?_⟩
    · intro w hw
      simp at hw
    · intro row hrow
      simp at hrow
  · have hguard : ¬ (s.players = [] ∨ s.weeks = []) := by
      rintro (h0 | h0)
      · exact hplayers h0
      · exact hweeks h0
    have hout : get_player_history s nm y =
        (if mergedHistory (seasonWeeksOf s y)
            (s.results.filter (fun r => decide (r.player_id = pid))) = []
         then []
         else (mergedHistory (seasonWeeksOf s y)
            (s.results.filter (fun r => decide (r.player_id = pid)))).insertionSort
              histLe) := by
      simp only [get_player_history, if_neg hguard, hpid]
    by_cases hmerged : mergedHistory (seasonWeeksOf s y)
        (s.results.filter (fun r => decide (r.player_id = pid))) = []
    · rw [hout, if_pos hmerged]
      rw [mergedHistory_eq_nil hmerged]
      refine ⟨rfl, List.sorted_nil, ?_, ?_⟩
      · intro w hw
        simp at hw
      · intro row hrow
        simp at hrow
    · rw [hout, if_neg hmerged]
      have hdup2 : ∀ w ∈ seasonWeeksOf s y,
          ((s.results.filter (fun r => decide (r.player_id = pid))).filter
            (fun r => decide (r.week_id = w.id))).length ≤ 1 := hdup
      refine ⟨?_, ?_, ?_, ?_⟩
      · rw [List.length_insertionSort]
        exact mergedHistory_length hdup2
      · exact List.sorted_insertionSort histLe _
      · intro w hw hfil
        rw [List.mem_insertionSort]
        exact mem_mergedHistory_none hw hfil
      · intro row hrow a ha
        rw [List.mem_insertionSort] at hrow
        obtain ⟨w, hw, hcase⟩ := mem_mergedHistory hrow
        rcases hcase with rfl | ⟨r, hrp, rfl⟩
        · simp [histRow] at ha
        · have hr : r ∈ s.results := (List.mem_filter.mp hrp).1
          simp only [histRow] at ha ⊢
          rcases hc : r.correct_guesses with _ | c <;> rw [hc] at ha
          · simp at ha
          · rcases ht : w.total_games with _ | t <;> rw [ht] at ha
            · simp at ha
            · simp only [] at ha
              split_ifs at ha with hcond
              · obtain ⟨hnom, htpos⟩ := hcond
                have hen := hst r hr
                have hstp : r.status = "participated" := by
                  rcases hen with h6 | h6
                  · exact h6
                  · exact absurd h6 hnom
                refine ⟨hstp, t, rfl, htpos, ?_⟩
                simpa using ha.symm

/-- C6 counterexample: with two results for the same `(player, week)` pair,
`get_player_history` returns two rows although the season has one week — the
claimed "one row per Week" fails. -/
theorem C6_duplicate_rows :
    (get_player_history snapDup "Alice" 2024).length = 2 ∧
    (seasonWeeksOf snapDup 2024).length = 1 := by
  decide

/-- Witness for C6 at Scenario A. -/
theorem C6_history_witness :
    lookupPlayer snapA.players "Alice" = some "p1" ∧
    atMostOneResultPerWeek snapA "p1" 2024 ∧ statusesCanonical snapA ∧
    (get_player_history snapA "Alice" 2024).length =
      (seasonWeeksOf snapA 2024).length :=
  ⟨by decide, by decide, by decide,
    (C6_history snapA "Alice" 2024 "p1" (by decide) (by decide) (by decide)).1⟩

theorem zipWith_rolling_avg :
    ∀ (part : List HistoryRow) (ps : List (Option ℚ × Option ℚ)),
      part.length = ps.length →
      (List.zipWith
        (fun (h : HistoryRow) (p : Option ℚ × Option ℚ) =>
          { week_number := h.week_number
            week_date := h.week_date
            total_games := h.total_games
            correct_guesses := h.correct_guesses
            accuracy := h.accuracy
            status := h.status
            rolling_avg := p.1
            rolling_var := p.2 : RollingRow })
        part ps).map (fun r => r.rolling_avg) = ps.map Prod.fst := by
  intro part
  induction part with
  | nil =>
    intro ps h
    cases ps with
    | nil => rfl
    | cons p ps2 => simp at h
  | cons a l ih =>
    intro ps h
    cases ps with
    | nil => simp at h
    | cons p ps2 =>
      simp only [List.zipWith_cons_cons, List.map_cons]
      rw [ih ps2 (by simpa using h)]

theorem rollingMeans_map_some (w : ℕ) (hw : 1 ≤ w) (vals : List ℚ) :
    rollingMeans w (vals.map some) = (specRollingAvg w vals).map some := by
  unfold rollingMeans specRollingAvg
  rw [List.length_map, List.map_map]
  apply List.map_congr_left
  intro i hi
  rw [List.mem_range] at hi
  dsimp only [Function.comp]
  have hslice : ((vals.map some).drop (i + 1 - w)).take (i + 1 - (i + 1 - w)) =
      ((vals.drop (i + 1 - w)).take (i + 1 - (i + 1 - w))).map some := by
    rw [← List.map_drop, ← List.map_take]
  rw [hslice, List.filterMap_map]
  have hcomp : (id ∘ (some : ℚ → Option ℚ)) = some := rfl
  rw [hcomp, List.filterMap_some]
  have hlen : ¬ ((vals.drop (i + 1 - w)).take (i + 1 - (i + 1 - w))).length = 0 := by
    rw [List.length_take, List.length_drop]
    omega
  rw [if_neg hlen]
  have harg : i + 1 - min w (i + 1) = i + 1 - w := by omega
  rw [harg, List.drop_take]

/-- C7: `get_rolling_averages` with window `w ≥ 1` returns an empty table
whenever the player has fewer than `w` participated rows; otherwise, when the
participated rows' accuracies are all non-null, the `rolling_avg` column is
exactly the spec's trailing mean of `min(w, i+1)` values (min-periods 1); and
on Scenario E (accuracies `40, 60, 80, 100`, `w = 3`) it returns
`[40, 50, 60, 80]`. -/
theorem C7_rolling :
    (∀ (s : Snapshot) (nm : String) (y : ℚ) (w : ℕ), 1 ≤ w →
      (((participatedRows s nm y).length < w →
          get_rolling_averages s nm y w = []) ∧
       (∀ vals : List ℚ,
         (participatedRows s nm y).map (fun h => h.accuracy) = vals.map some →
         w ≤ (participatedRows s nm y).length →
         (get_rolling_averages s nm y w).map (fun r => r.rolling_avg) =
           (specRollingAvg w vals).map some))) ∧
    (participatedRows snapRoll "Alice" 2024).map (fun h => h.accuracy) =
      [some 40, some 60, some 80, some 100] ∧
    (get_rolling_averages snapRoll "Alice" 2024 3).map (fun r => r.rolling_avg) =
      [some 40, some 50, some 60, some 80] := by
  refine ⟨?_, by decide, by decide⟩
  intro s nm y w hw
  constructor
  · intro hlt
    simp only [get_rolling_averages]
    by_cases hh : get_player_history s nm y = []
    · rw [if_pos hh]
    · rw [if_neg hh, if_pos hlt]
  · intro vals hvals hle
    by_cases hh : get_player_history s nm y = []
    · exfalso
      have hpnil : participatedRows s nm y = [] := by
        unfold participatedRows
        rw [hh]
        rfl
      rw [hpnil] at hle
      simp at hle
      omega
    · simp only [get_rolling_averages]
      rw [if_neg hh, if_neg (not_lt.mpr hle), if_neg (by omega : ¬ w = 0)]
      rw [zipWith_rolling_avg _ _ (by
        simp [rollingMeans, rollingVars, List.length_zip])]
      rw [List.map_fst_zip _ _ (by simp [rollingMeans, rollingVars])]
      rw [hvals, rollingMeans_map_some w hw vals]

/-- Witness for C7 at Scenario E. -/
theorem C7_rolling_witness :
    (participatedRows snapRoll "Alice" 2024).map (fun h => h.accuracy) =
      [(40:ℚ), 60, 80, 100].map some ∧
    3 ≤ (participatedRows snapRoll "Alice" 2024).length ∧
    (get_rolling_averages snapRoll "Alice" 2024 3).map (fun r => r.rolling_avg) =
      (specRollingAvg 3 [40, 60, 80, 100]).map some :=
  ⟨by decide, by decide,
    (C7_rolling.1 snapRoll "Alice" 2024 3 (by decide)).2 [40, 60, 80, 100]
      (by decide) (by decide)⟩

theorem filter_key_dedupAux (pid wid : String) :
    ∀ (l : List Result) (seen : List (String × String)),
      ((dedupAux seen l).filter
        (fun r => decide (r.player_id = pid ∧ r.week_id = wid))).head? =
      (if (pid, wid) ∈ seen then none
       else (l.filter
        (fun r => decide (r.player_id = pid ∧ r.week_id = wid))).head?) := by
  intro l
  induction l with
  | nil =>
    intro seen
    by_cases htarget : (pid, wid) ∈ seen
    · simp [dedupAux, htarget]
    · simp [dedupAux, htarget]
  | cons r rs ih =>
    intro seen
    rw [dedupAux]
    by_cases hseen : (r.player_id, r.week_id) ∈ seen
    · rw [if_pos hseen, ih seen]
      by_cases htarget : (pid, wid) ∈ seen
      · rw [if_pos htarget, if_pos htarget]
      · rw [if_neg htarget, if_neg htarget]
        have hpr : (decide (r.player_id = pid ∧ r.week_id = wid)) = false := by
          apply decide_eq_false
          rintro ⟨h1, h2⟩
          exact htarget (h1 ▸ h2 ▸ hseen)
        rw [List.filter_cons, hpr]
        simp
    · rw [if_neg hseen]
      by_cases hpr : (r.player_id = pid ∧ r.week_id = wid)
      · obtain ⟨h1, h2⟩ := hpr
        have htarget : ¬ ((pid, wid) ∈ seen) := by
          rw [← h1, ← h2]
          exact hseen
        rw [if_neg htarget]
        rw [List.filter_cons, List.filter_cons]
        rw [decide_eq_true (show r.player_id = pid ∧ r.week_id = wid from ⟨h1, h2⟩)]
        simp
      · have hprb : decide (r.player_id = pid ∧ r.week_id = wid) = false :=
          decide_eq_false hpr
        rw [List.filter_cons, List.filter_cons, hprb]
        simp only [Bool.false_eq_true, if_false]
        rw [ih ((r.player_id, r.week_id) :: seen)]
        by_cases htarget : (pid, wid) ∈ seen
        · rw [if_pos htarget, if_pos (List.mem_cons_of_mem _ htarget)]
        · rw [if_neg htarget]
          have hne : ¬ ((pid, wid) ∈ (r.player_id, r.week_id) :: seen) := by
            intro hc
            rcases List.mem_cons.mp hc with heq | hmem
            · have := Prod.mk.injEq .. ▸ heq
              apply hpr
              constructor
              · exact (Prod.mk.inj heq.symm).1.symm ▸ rfl
              · exact (Prod.mk.inj heq.symm).2.symm ▸ rfl
            · exact htarget hmem
          rw [if_neg hne]

theorem firstMatch_filter_dedup (results : List Result) (pid : String)
    (ids : List String) (wid : String) (hw : wid ∈ ids) :
    firstMatch ((dedupResults results).filter
      (fun r => decide (r.player_id = pid ∧ r.week_id ∈ ids))) wid =
    firstMatch (results.filter
      (fun r => decide (r.player_id = pid ∧ r.week_id ∈ ids))) wid := by
  unfold firstMatch
  rw [List.filter_filter, List.filter_filter]
  have hcongr : ∀ (l : List Result),
      l.filter (fun r => decide (r.week_id = wid) &&
        decide (r.player_id = pid ∧ r.week_id ∈ ids)) =
      l.filter (fun r => decide (r.player_id = pid ∧ r.week_id = wid)) := by
    intro l
    apply List.filter_congr
    intro r _
    by_cases h1 : r.week_id = wid
    · by_cases h2 : r.player_id = pid
      · simp [h1, h2, hw]
      · simp [h1, h2]
    · simp [h1]
  rw [hcongr, hcongr]
  have h3 := filter_key_dedupAux pid wid results []
  simpa [dedupResults] using h3

theorem sumWeeks_congr {pres1 pres2 : List Result} :
    ∀ {ws : List Week} {acc : Totals},
      (∀ w ∈ ws, firstMatch pres1 w.id = firstMatch pres2 w.id) →
      sumWeeks pres1 ws acc = sumWeeks pres2 ws acc := by
  intro ws
  induction ws with
  | nil => intro acc _; rfl
  | cons w ws ih =>
    intro acc h
    have h1 := h w (List.mem_cons_self _ _)
    have h2 : ∀ u ∈ ws, firstMatch pres1 u.id = firstMatch pres2 u.id :=
      fun u hu => h u (List.mem_cons_of_mem _ hu)
    rw [sumWeeks, sumWeeks, h1]
    cases w.total_games with
    | none => rfl
    | some tv =>
      cases firstMatch pres2 w.id with
      | none => exact ih h2
      | some r =>
        dsimp only
        split_ifs <;> exact ih h2

theorem playerRow_dedup (weeks2 : List Week) (results : List Result) (p : Player) :
    (playerRow weeks2 (dedupResults results) p).map projTotals =
    (playerRow weeks2 results p).map projTotals := by
  simp only [playerRow]
  have hfm : ∀ w ∈ weeks2,
      firstMatch ((dedupResults results).filter
        (fun r => decide (r.player_id = p.id ∧
          r.week_id ∈ weeks2.map (fun w => w.id)))) w.id =
      firstMatch (results.filter
        (fun r => decide (r.player_id = p.id ∧
          r.week_id ∈ weeks2.map (fun w => w.id)))) w.id := by
    intro w hw
    exact firstMatch_filter_dedup results p.id _ w.id
      (List.mem_map_of_mem _ hw)
  rw [sumWeeks_congr hfm]
  cases sumWeeks (results.filter
      (fun r => decide (r.player_id = p.id ∧
        r.week_id ∈ weeks2.map (fun w => w.id)))) weeks2 ⟨0, 0, 0, 0⟩ with
  | error e => rfl
  | ok t => rfl

theorem standingsRows_dedup (weeks2 : List Week) (results : List Result) :
    ∀ ps : List Player,
      (standingsRows weeks2 (dedupResults results) ps).map (List.map projTotals) =
      (standingsRows weeks2 results ps).map (List.map projTotals) := by
  intro ps
  induction ps with
  | nil => rfl
  | cons p ps ih =>
    rw [standingsRows, standingsRows]
    have hpr := playerRow_dedup weeks2 results p
    rcases hd : playerRow weeks2 (dedupResults results) p with e | r <;>
      rcases ho : playerRow weeks2 results p with e2 | r2 <;>
      rw [hd, ho] at hpr
    · obtain rfl : e = e2 := by simpa [Except.map] using hpr
      rfl
    · simp [Except.map] at hpr
    · simp [Except.map] at hpr
    · have hpr2 : projTotals r = projTotals r2 := by simpa [Except.map] using hpr
      dsimp only
      rcases hsd : standingsRows weeks2 (dedupResults results) ps with e3 | rs3 <;>
        rcases hso : standingsRows weeks2 results ps with e4 | rs4 <;>
        rw [hsd, hso] at ih
      · obtain rfl : e3 = e4 := by simpa [Except.map] using ih
        rfl
      · simp [Except.map] at ih
      · simp [Except.map] at ih
      · have ih2 : rs3.map projTotals = rs4.map projTotals := by simpa [Except.map] using ih
        simp [Except.map, hpr2, ih2]

/-- C8 (amended): deduplicating the results (keeping the first record per
`(player_id, week_id)` pair) leaves every `calculate_standings` column
unchanged except `weeks_adjusted` and `omitted_weeks`, which count duplicate
non-omitted results. -/
theorem C8_first_match (s : Snapshot) (y : ℚ) (wn : Option ℚ) :
    (calculate_standings (dedupSnap s) y wn).map projTotals =
    (calculate_standings s y wn).map projTotals := by
  simp only [calculate_standings]
  rw [show (dedupSnap s).players = s.players from rfl,
      show (dedupSnap s).weeks = s.weeks from rfl,
      show (dedupSnap s).results = dedupResults s.results from rfl,
      show inScopeWeeks (dedupSnap s) y wn = inScopeWeeks s y wn from rfl]
  by_cases hg : s.players = [] ∨ s.weeks = []
  · rw [if_pos hg, if_pos hg]
  · rw [if_neg hg, if_neg hg]
    by_cases hw2 : inScopeWeeks s y wn = []
    · rw [if_pos hw2, if_pos hw2]
    · rw [if_neg hw2, if_neg hw2]
      have h5 := standingsRows_dedup (inScopeWeeks s y wn) s.results s.players
      rcases hsd : standingsRows (inScopeWeeks s y wn) (dedupResults s.results)
          s.players with e | rows <;>
        rcases hso : standingsRows (inScopeWeeks s y wn) s.results s.players
          with e2 | rows2 <;>
        rw [hsd, hso] at h5 <;> dsimp only
      · simp [Except.map] at h5
      · simp [Except.map] at h5
      · simpa [Except.map] using h5

/-- C8 counterexample: with two participated results for the same
`(player, week)` pair, the full standings output differs from the output on
the deduplicated snapshot (`weeks_adjusted` is 2 vs 1 and `omitted_weeks`
is -1 vs 0). -/
theorem C8_duplicate_changes_output :
    calculate_standings snapDup 2024 none ≠
      calculate_standings (dedupSnap snapDup) 2024 none := by
  decide

/-- C9: evaluation at the failing input.  A single in-scope week whose
`total_games` failed numeric coercion makes `int(week['total_games'])` raise,
and the `except` handler returns an *empty* table — all per-player data from
the remaining well-formed week is lost — whereas removing the malformed week
yields the expected one-row table. -/
theorem C9_malformed_total_aborts :
    calculate_standings snapMal 2024 none = [] ∧
    calculate_standings snapMalClean 2024 none = [rowMalClean] := by
  decide
